import Mathlib

/-!
Verification of the spreadsheet/ZIP serialization core of TAI_ReadIntents.

The repository consists of two scraping scripts, `src/scrapeIntents.js` and
`src/scrapeIntentsBrowser.js`, each embedding the same dependency-free
XLSX writer: a CRC-32 checksum engine, a byte-for-byte ZIP (STORE) archive
builder, a workbook XML generator, and a quoted delimited-text (CSV) fallback.

Shallow embedding conventions:
* JS strings are `List Char`; JS byte buffers (`Uint8Array`) are `List Nat`,
  one element per byte.
* `DataView.setUint16/32(..., true)` little-endian writes are modelled by the
  byte encodings `le16` / `le32` (each byte extracted mod 256, exactly the
  bytes the JS calls store; `setUint32` truncates mod 2^32, which `le32` does
  per byte).  The `Uint8Array` records written by the ZIP builder fill every
  byte position contiguously (the browser variant leaves a few fields to the
  zero initialization of `Uint8Array`; the Node variant writes explicit zeros
  there — same bytes), so each record is embedded as the concatenation of its
  fields in offset order.
* JS 32-bit integer bit operations (`^`, `>>>`, `&`) on values that stay below
  2^32 are modelled by `Nat` operations (`^^^`, `/ 2`, `% 2`); the CRC register
  provably stays below 2^32.
* JS row objects are functions `List Char → Option (List Char)` (`none` models
  a missing key / `undefined` / `null`).
-/

namespace ReadIntents

/-! ### Checksum Engine (crc32, identical in both source files) -/

/-- Inner bit loop of `crc32`: `for (j = 0; j < 8; j++) c = (c >>> 1) ^ (c & 1 ? 0xedb88320 : 0)`
from `src/scrapeIntents.js` lines 1172-1174 and `src/scrapeIntentsBrowser.js` line 358. -/
def crc32Bits : Nat → Nat → Nat
  | 0, c => c
  | j + 1, c => crc32Bits j ((c / 2) ^^^ (if c % 2 = 1 then 0xedb88320 else 0))

/-- The checksum engine `crc32(bytes)` from `src/scrapeIntents.js` lines 1168-1177
(and the identical function in `src/scrapeIntentsBrowser.js` lines 354-361):
register starts at `0xffffffff`, each byte is XORed in (`crc ^= bytes[i]`),
eight bit rounds run, and the final register is inverted (`crc ^ 0xffffffff`). -/
def crc32 (bytes : List Nat) : Nat :=
  (bytes.foldl (fun c b => crc32Bits 8 (c ^^^ b)) 0xffffffff) ^^^ 0xffffffff

/-- Reference CRC-32 bit round, following the spec's words (section 4.1): "if the
low bit is set, shift right and XOR with 0xEDB88320, else shift right". -/
def crcSpecRound (r : Nat) : Nat :=
  if r % 2 = 1 then (r / 2) ^^^ 0xedb88320 else r / 2

/-- Reference per-byte step, following the spec's words: "for each byte, XOR into
the low byte of the register, then for 8 iterations" run the bit round. -/
def crcSpecByte (r b : Nat) : Nat := crcSpecRound^[8] (r ^^^ b)

/-- Reference CRC-32 definition assembled from the spec's words (section 4.1):
polynomial 0xEDB88320, reflected, initial register 0xFFFFFFFF, final output
inverted via XOR 0xFFFFFFFF. -/
def crc32Spec (bytes : List Nat) : Nat :=
  (bytes.foldl crcSpecByte 0xffffffff) ^^^ 0xffffffff

/-- ASCII bytes of a string (what `TextEncoder` produces on ASCII input). -/
def asciiBytes (s : String) : List Nat := s.data.map Char.toNat

lemma natXor_lt_two_pow {x y n : Nat} (hx : x < 2 ^ n) (hy : y < 2 ^ n) :
    x ^^^ y < 2 ^ n :=
  Nat.bitwise_lt hx hy

lemma crc32Bits_eq_iterate : ∀ (j c : Nat), crc32Bits j c = crcSpecRound^[j] c := by
  intro j
  induction j with
  | zero => intro c; rfl
  | succ n ih =>
    intro c
    have hstep : (c / 2) ^^^ (if c % 2 = 1 then 0xedb88320 else 0) = crcSpecRound c := by
      by_cases h : c % 2 = 1 <;> simp [crcSpecRound, h]
    calc crc32Bits (n + 1) c
        = crc32Bits n ((c / 2) ^^^ (if c % 2 = 1 then 0xedb88320 else 0)) := rfl
      _ = crc32Bits n (crcSpecRound c) := by rw [hstep]
      _ = crcSpecRound^[n] (crcSpecRound c) := ih _
      _ = crcSpecRound^[n + 1] c := (Function.iterate_succ_apply crcSpecRound n c).symm

lemma crc32_foldl_eq : ∀ (bs : List Nat) (c : Nat),
    bs.foldl (fun c b => crc32Bits 8 (c ^^^ b)) c = bs.foldl crcSpecByte c := by
  intro bs
  induction bs with
  | nil => intro c; rfl
  | cons b rest ih =>
    intro c
    simp only [List.foldl_cons]
    rw [ih]
    congr 1
    simp [crcSpecByte, crc32Bits_eq_iterate]

lemma crc32Bits_lt : ∀ (j c : Nat), c < 2 ^ 32 → crc32Bits j c < 2 ^ 32 := by
  intro j
  induction j with
  | zero => intro c h; exact h
  | succ n ih =>
    intro c h
    apply ih
    have hdiv : c / 2 < 2 ^ 32 := lt_of_le_of_lt (Nat.div_le_self c 2) h
    have hpoly : (if c % 2 = 1 then 0xedb88320 else 0) < 2 ^ 32 := by
      by_cases hc : c % 2 = 1 <;> simp [hc]
    exact natXor_lt_two_pow hdiv hpoly

lemma crc32_foldl_lt : ∀ (bs : List Nat) (c : Nat), c < 2 ^ 32 → (∀ b ∈ bs, b < 256) →
    bs.foldl (fun c b => crc32Bits 8 (c ^^^ b)) c < 2 ^ 32 := by
  intro bs
  induction bs with
  | nil => intro c hc _; exact hc
  | cons b rest ih =>
    intro c hc hb
    have hb0 : b < 2 ^ 32 := by
      have : b < 256 := hb b (List.mem_cons_self _ _)
      omega
    exact ih _ (crc32Bits_lt 8 _ (natXor_lt_two_pow hc hb0))
      (fun x hx => hb x (List.mem_cons_of_mem _ hx))

set_option maxRecDepth 100000

/-- C1 (counterexample): on the 9-byte ASCII input `"123456789"` the Checksum
Engine `crc32` returns `0xCBF43926`, not the value `0xCBF53A1B` that the claim
states. -/
theorem crc32_claimed_value_refuted :
    crc32 (asciiBytes ("123456789")) = 0xCBF43926 ∧
      crc32 (asciiBytes ("123456789")) ≠ 0xCBF53A1B := by
  constructor
  · decide
  · decide

/-- C1 (amended): for the 9-byte ASCII input `"123456789"`, the Checksum Engine
`crc32` returns the standard published CRC-32 check value `0xCBF43926`. -/
theorem crc32_test_vector :
    (asciiBytes ("123456789")).length = 9 ∧
      crc32 (asciiBytes ("123456789")) = 0xCBF43926 := by
  constructor
  · rfl
  · decide

/-- C7: `crc32` is a total function over byte sequences whose result agrees with
the reference CRC-32 definition (`crc32Spec`, assembled from the spec's section
4.1 wording) on every input, and its output fits in 32 bits whenever the input
elements are bytes. -/
theorem crc32_refines_spec (bytes : List Nat) :
    crc32 bytes = crc32Spec bytes ∧
      ((∀ b ∈ bytes, b < 256) → crc32 bytes < 2 ^ 32) := by
  constructor
  · unfold crc32 crc32Spec
    rw [crc32_foldl_eq]
  · intro hb
    unfold crc32
    exact natXor_lt_two_pow (crc32_foldl_lt bytes 0xffffffff (by norm_num) hb)
      (by norm_num)

/-- Witness for C7 at a concrete input. -/
theorem crc32_refines_spec_witness :
    crc32 (asciiBytes ("123456789")) = crc32Spec (asciiBytes ("123456789")) ∧
      crc32 (asciiBytes ("123456789")) < 2 ^ 32 :=
  ⟨(crc32_refines_spec (asciiBytes ("123456789"))).1,
    (crc32_refines_spec (asciiBytes ("123456789"))).2 (by decide)⟩

/-! ### Archive Entry Encoder and Archive Builder (buildZipBlob / buildZip)

The Node variant (`src/scrapeIntents.js` lines 1086-1166) writes every header
field of each record explicitly; the browser variant (`src/scrapeIntentsBrowser.js`
lines 319-352) omits the fields whose value is zero, which stay at the zero
initialization of `Uint8Array` — the produced bytes are identical, so one
embedding covers both. -/

/-- Little-endian bytes stored by `DataView.setUint16(off, n, true)`. -/
def le16 (n : Nat) : List Nat := [n % 256, (n / 256) % 256]

/-- Little-endian bytes stored by `DataView.setUint32(off, n, true)`. -/
def le32 (n : Nat) : List Nat :=
  [n % 256, (n / 256) % 256, (n / 65536) % 256, (n / 16777216) % 256]

/-- One input to the ZIP builder: the UTF-8 bytes of the part's name and of its
textual content (the `TextEncoder().encode` results in the source). -/
structure ZipFile where
  name : List Nat
  content : List Nat

/-- Default `ZipFile` used with `List.getD`. -/
def zfDefault : ZipFile := ⟨[], []⟩

/-- Local file header (`localHeader` in `buildZipBlob`): fields in offset order —
signature 0x04034b50 (0), version needed 20 (4), flags 0 (6), compression 0 =
STORE (8), mod time 0 (10), mod date 0 (12), CRC-32 (14), compressed size (18),
uncompressed size (22), name length (26), extra length 0 (28), name bytes (30). -/
def localHeader (crc size : Nat) (nameBytes : List Nat) : List Nat :=
  le32 0x04034b50 ++ le16 20 ++ le16 0 ++ le16 0 ++ le16 0 ++ le16 0 ++
    le32 crc ++ le32 size ++ le32 size ++ le16 nameBytes.length ++ le16 0 ++
    nameBytes

/-- Central-directory entry (`cdEntry` in `buildZipBlob`): signature 0x02014b50
(0), version made by 20 (4), version needed 20 (6), flags 0 (8), compression 0
(10), mod time 0 (12), mod date 0 (14), CRC-32 (16), compressed size (20),
uncompressed size (24), name length (28), extra 0 (30), comment 0 (32), disk 0
(34), internal attrs 0 (36), external attrs 0 (38), local-header offset (42),
name bytes (46). -/
def cdEntry (crc size offset : Nat) (nameBytes : List Nat) : List Nat :=
  le32 0x02014b50 ++ le16 20 ++ le16 20 ++ le16 0 ++ le16 0 ++ le16 0 ++
    le16 0 ++ le32 crc ++ le32 size ++ le32 size ++ le16 nameBytes.length ++
    le16 0 ++ le16 0 ++ le16 0 ++ le16 0 ++ le32 0 ++ le32 offset ++ nameBytes

/-- End-of-central-directory record (`eocd` in `buildZipBlob`): signature
0x06054b50 (0), disk number 0 (4), central-directory start disk 0 (6), entries
on this disk (8), total entries (10), central-directory size (12),
central-directory offset (16), comment length 0 (20). -/
def eocd (count cdSize cdOffset : Nat) : List Nat :=
  le32 0x06054b50 ++ le16 0 ++ le16 0 ++ le16 count ++ le16 count ++
    le32 cdSize ++ le32 cdOffset ++ le16 0

/-- The `for (const file of files)` loop of `buildZipBlob`: pushes each local
record (header followed by content bytes) onto `parts`, stashes the
central-directory entry recorded at the current running `offset`, and advances
`offset` by `localHeader.length + contentBytes.length`.  Returns the pushed
local records, the stashed central-directory entries, and the final offset. -/
def buildZipLoop : List ZipFile → Nat → List (List Nat) × List (List Nat) × Nat
  | [], off => ([], [], off)
  | f :: rest, off =>
      let cr := crc32 f.content
      let sz := f.content.length
      let lh := localHeader cr sz f.name
      let ce := cdEntry cr sz off f.name
      let r := buildZipLoop rest (off + (lh.length + f.content.length))
      ((lh ++ f.content) :: r.1, ce :: r.2.1, r.2.2)

/-- `buildZipBlob(files)` from `src/scrapeIntents.js` lines 1086-1166 (and the
byte-identical `buildZip` in `src/scrapeIntentsBrowser.js` lines 319-352): all
local records, then all central-directory entries in the same order, then the
end record built from `files.length`, the summed central-directory size, and
the final running offset. -/
def buildZipBlob (files : List ZipFile) : List Nat :=
  let r := buildZipLoop files 0
  r.1.flatten ++ r.2.1.flatten ++ eocd files.length ((r.2.1.map List.length).sum) r.2.2

/-- Total byte length of one part's local record: 30-byte header + name + content. -/
def recLen (f : ZipFile) : Nat := 30 + f.name.length + f.content.length

/-- Byte length of one part's central-directory entry: 46-byte fixed part + name. -/
def cdLen (f : ZipFile) : Nat := 46 + f.name.length

/-- The local record a part contributes to the archive body. -/
def localRec (f : ZipFile) : List Nat :=
  localHeader (crc32 f.content) f.content.length f.name ++ f.content

/-- Closed form of the stashed central-directory entries for a starting offset. -/
def cdsFrom : List ZipFile → Nat → List (List Nat)
  | [], _ => []
  | f :: rest, off =>
      cdEntry (crc32 f.content) f.content.length off f.name ::
        cdsFrom rest (off + recLen f)

lemma localHeader_length (crc size : Nat) (nb : List Nat) :
    (localHeader crc size nb).length = 30 + nb.length := by
  simp only [localHeader, le16, le32, List.length_append, List.length_cons,
    List.length_nil]

lemma cdEntry_length (crc size offset : Nat) (nb : List Nat) :
    (cdEntry crc size offset nb).length = 46 + nb.length := by
  simp only [cdEntry, le16, le32, List.length_append, List.length_cons,
    List.length_nil]

lemma localRec_length (f : ZipFile) : (localRec f).length = recLen f := by
  simp only [localRec, recLen, List.length_append, localHeader_length]

lemma buildZipLoop_eq : ∀ (files : List ZipFile) (off : Nat),
    buildZipLoop files off =
      (files.map localRec, cdsFrom files off, off + (files.map recLen).sum) := by
  intro files
  induction files with
  | nil => intro off; simp [buildZipLoop, cdsFrom]
  | cons f rest ih =>
    intro off
    have h : (localHeader (crc32 f.content) f.content.length f.name).length +
        f.content.length = recLen f := by
      simp only [localHeader_length, recLen]
    simp only [buildZipLoop, ih, h, List.map_cons, cdsFrom, List.sum_cons]
    simp [localRec, Nat.add_assoc]

lemma cdsFrom_length_sum : ∀ (files : List ZipFile) (off : Nat),
    ((cdsFrom files off).map List.length).sum = (files.map cdLen).sum := by
  intro files
  induction files with
  | nil => intro off; rfl
  | cons f rest ih =>
    intro off
    simp only [cdsFrom, List.map_cons, List.sum_cons, ih, cdEntry_length, cdLen]

lemma localRecs_length_sum (files : List ZipFile) :
    ((files.map localRec).map List.length).sum = (files.map recLen).sum := by
  induction files with
  | nil => rfl
  | cons f rest ih =>
    simp only [List.map_cons, List.sum_cons, ih, localRec_length]

lemma flatten_length_localRecs (files : List ZipFile) :
    ((files.map localRec).flatten).length = (files.map recLen).sum := by
  rw [List.length_flatten, localRecs_length_sum]

lemma flatten_length_cds (files : List ZipFile) (off : Nat) :
    ((cdsFrom files off).flatten).length = (files.map cdLen).sum := by
  rw [List.length_flatten, cdsFrom_length_sum]

lemma drop_len_append {α : Type} : ∀ (l₁ l₂ : List α) (n : Nat),
    (l₁ ++ l₂).drop (l₁.length + n) = l₂.drop n := by
  intro l₁
  induction l₁ with
  | nil => intro l₂ n; simp
  | cons a t ih =>
    intro l₂ n
    simp only [List.length_cons, List.cons_append, Nat.succ_add, List.drop_succ_cons]
    exact ih l₂ n

lemma drop_len_append_self {α : Type} (l₁ l₂ : List α) :
    (l₁ ++ l₂).drop l₁.length = l₂ := by
  have h := drop_len_append l₁ l₂ 0
  simp only [Nat.add_zero, List.drop_zero] at h
  exact h

/-- Unfolded shape of the builder's output. -/
lemma buildZipBlob_eq (files : List ZipFile) :
    buildZipBlob files =
      (files.map localRec).flatten ++ (cdsFrom files 0).flatten ++
        eocd files.length ((files.map cdLen).sum) ((files.map recLen).sum) := by
  unfold buildZipBlob
  rw [buildZipLoop_eq]
  simp [cdsFrom_length_sum]

lemma eocd_length (n s o : Nat) : (eocd n s o).length = 22 := rfl

lemma getD_map {α β : Type} (f : α → β) (d : α) (e : β) :
    ∀ (l : List α) (i : Nat), i < l.length → (l.map f).getD i e = f (l.getD i d) := by
  intro l
  induction l with
  | nil => intro i h; simp at h
  | cons a t ih =>
    intro i h
    cases i with
    | zero => rfl
    | succ j =>
      simp only [List.map_cons, List.getD_cons_succ]
      exact ih j (by simpa using h)

lemma cdsFrom_getD : ∀ (files : List ZipFile) (off i : Nat), i < files.length →
    (cdsFrom files off).getD i [] =
      cdEntry (crc32 (files.getD i zfDefault).content)
        (files.getD i zfDefault).content.length
        (off + ((files.take i).map recLen).sum)
        (files.getD i zfDefault).name := by
  intro files
  induction files with
  | nil => intro off i h; simp at h
  | cons f rest ih =>
    intro off i h
    cases i with
    | zero => simp [cdsFrom]
    | succ j =>
      simp only [cdsFrom, List.getD_cons_succ, List.take_succ_cons, List.map_cons,
        List.sum_cons]
      rw [ih (off + recLen f) j (by simpa using h)]
      ring_nf

/-- Offset field of the i-th central-directory entry inside the flattened
central directory (with an arbitrary tail appended after it). -/
lemma cds_flatten_offset_field : ∀ (files : List ZipFile) (off i : Nat)
    (tail : List Nat), i < files.length →
    ((((cdsFrom files off).flatten ++ tail).drop
        (((files.take i).map cdLen).sum + 42)).take 4)
      = le32 (off + ((files.take i).map recLen).sum) := by
  intro files
  induction files with
  | nil => intro off i tail h; simp at h
  | cons f rest ih =>
    intro off i tail h
    cases i with
    | zero =>
      simp only [List.take_zero, List.map_nil, List.sum_nil, Nat.zero_add,
        Nat.add_zero, cdsFrom, List.flatten_cons, List.append_assoc]
      rfl
    | succ j =>
      simp only [List.take_succ_cons, List.map_cons, List.sum_cons, cdsFrom,
        List.flatten_cons, List.append_assoc]
      rw [show cdLen f + (((rest.take j).map cdLen).sum) + 42 =
            (cdEntry (crc32 f.content) f.content.length off f.name).length +
              ((((rest.take j).map cdLen).sum) + 42) by
          rw [cdEntry_length, cdLen]; omega]
      rw [drop_len_append]
      rw [ih (off + recLen f) j tail (by simpa using h)]
      ring_nf

set_option maxRecDepth 2000

/-- C2: the 4-byte little-endian offset field (at byte 42) of the i-th
central-directory entry in the builder's output equals the sum of the total
byte lengths (`recLen f = 30 + name length + content length`) of all local
records written before the i-th part's local header.  The i-th
central-directory entry starts at byte
`(files.map recLen).sum + ((files.take i).map cdLen).sum` of the output. -/
theorem zip_cd_offset_invariant (files : List ZipFile) (i : Nat)
    (h : i < files.length) :
    (((buildZipBlob files).drop
        ((files.map recLen).sum + ((files.take i).map cdLen).sum + 42)).take 4)
      = le32 (((files.take i).map recLen).sum) := by
  rw [buildZipBlob_eq, List.append_assoc]
  rw [show (files.map recLen).sum + ((files.take i).map cdLen).sum + 42 =
        ((files.map localRec).flatten).length +
          (((files.take i).map cdLen).sum + 42) by
      rw [flatten_length_localRecs]; omega]
  rw [drop_len_append]
  have hfield := cds_flatten_offset_field files 0 i
    (eocd files.length ((files.map cdLen).sum) ((files.map recLen).sum)) h
  rw [hfield, Nat.zero_add]

/-- Concrete two-part input for the archive witnesses. -/
def zwFiles : List ZipFile := [⟨[65], [66, 67]⟩, ⟨[68, 69], [70]⟩]

/-- Witness for C2 at a concrete input (second entry, preceded by one local
record of length 33). -/
theorem zip_cd_offset_invariant_witness :
    1 < zwFiles.length ∧
      (((buildZipBlob zwFiles).drop
          ((zwFiles.map recLen).sum + ((zwFiles.take 1).map cdLen).sum + 42)).take 4)
        = le32 (((zwFiles.take 1).map recLen).sum) :=
  ⟨by decide, zip_cd_offset_invariant zwFiles 1 (by decide)⟩

/-- C4: for every part, the local record stores compression method 0 (STORE) and
its "compressed size" and "uncompressed size" fields both hold the content's
byte length; the CRC-32 and both size fields of the central-directory entry
(bytes 16-27) are byte-for-byte equal to those of the local header (bytes
14-25), all little-endian. -/
theorem zip_stored_sizes_mirror (files : List ZipFile) (i : Nat)
    (h : i < files.length) :
    (((buildZipLoop files 0).1.getD i []).drop 8).take 2 = le16 0 ∧
    (((buildZipLoop files 0).1.getD i []).drop 18).take 4 =
      le32 (files.getD i zfDefault).content.length ∧
    (((buildZipLoop files 0).1.getD i []).drop 22).take 4 =
      le32 (files.getD i zfDefault).content.length ∧
    (((buildZipLoop files 0).2.1.getD i []).drop 20).take 4 =
      le32 (files.getD i zfDefault).content.length ∧
    (((buildZipLoop files 0).2.1.getD i []).drop 24).take 4 =
      le32 (files.getD i zfDefault).content.length ∧
    (((buildZipLoop files 0).2.1.getD i []).drop 16).take 12 =
      (((buildZipLoop files 0).1.getD i []).drop 14).take 12 := by
  simp only [buildZipLoop_eq]
  rw [getD_map localRec zfDefault [] files i h, cdsFrom_getD files 0 i h]
  refine ⟨rfl, rfl, rfl, rfl, rfl, ?_⟩
  show ((cdEntry (crc32 (files.getD i zfDefault).content)
      (files.getD i zfDefault).content.length
      (0 + ((files.take i).map recLen).sum)
      (files.getD i zfDefault).name).drop 16).take 12 =
    ((localRec (files.getD i zfDefault)).drop 14).take 12
  rfl

/-- Witness for C4 at a concrete input (first part of `zwFiles`). -/
theorem zip_stored_sizes_mirror_witness :
    0 < zwFiles.length ∧
      ((((buildZipLoop zwFiles 0).1.getD 0 []).drop 8).take 2 = le16 0 ∧
      (((buildZipLoop zwFiles 0).1.getD 0 []).drop 18).take 4 =
        le32 (zwFiles.getD 0 zfDefault).content.length ∧
      (((buildZipLoop zwFiles 0).1.getD 0 []).drop 22).take 4 =
        le32 (zwFiles.getD 0 zfDefault).content.length ∧
      (((buildZipLoop zwFiles 0).2.1.getD 0 []).drop 20).take 4 =
        le32 (zwFiles.getD 0 zfDefault).content.length ∧
      (((buildZipLoop zwFiles 0).2.1.getD 0 []).drop 24).take 4 =
        le32 (zwFiles.getD 0 zfDefault).content.length ∧
      (((buildZipLoop zwFiles 0).2.1.getD 0 []).drop 16).take 12 =
        (((buildZipLoop zwFiles 0).1.getD 0 []).drop 14).take 12) :=
  ⟨by decide, zip_stored_sizes_mirror zwFiles 0 (by decide)⟩

/-- C5: the builder's output ends (after all local records and the central
directory) with the 22-byte end-of-central-directory record: signature
0x06054b50, both entry-count fields holding the number of parts, the
central-directory-size field holding the summed central-directory entry
lengths, and the central-directory-offset field holding the summed local record
lengths; on the empty parts list the output is that 22-byte record alone with
zero counts, zero size and zero offset. -/
theorem zip_eocd_record (files : List ZipFile) :
    ((buildZipBlob files).drop ((files.map recLen).sum + (files.map cdLen).sum) =
        eocd files.length ((files.map cdLen).sum) ((files.map recLen).sum)) ∧
      (∀ n s o : Nat,
        (eocd n s o).length = 22 ∧
        (eocd n s o).take 4 = le32 0x06054b50 ∧
        ((eocd n s o).drop 8).take 2 = le16 n ∧
        ((eocd n s o).drop 10).take 2 = le16 n ∧
        ((eocd n s o).drop 12).take 4 = le32 s ∧
        ((eocd n s o).drop 16).take 4 = le32 o) ∧
      buildZipBlob [] = eocd 0 0 0 ∧
      (buildZipBlob []).length = 22 := by
  refine ⟨?_, fun n s o => ⟨rfl, rfl, rfl, rfl, rfl, rfl⟩, rfl, rfl⟩
  rw [buildZipBlob_eq, List.append_assoc]
  rw [show (files.map recLen).sum + (files.map cdLen).sum =
        ((files.map localRec).flatten).length +
          ((cdsFrom files 0).flatten).length by
      rw [flatten_length_localRecs, flatten_length_cds]]
  rw [drop_len_append, drop_len_append_self]

/-- C10: the total byte length of the archive equals the sum over parts of
(30 + name length + content length) for the local records, plus the sum over
parts of (46 + name length) for the central-directory entries, plus 22 for the
end record. -/
theorem zip_total_length (files : List ZipFile) :
    (buildZipBlob files).length =
      (files.map (fun f => 30 + f.name.length + f.content.length)).sum +
        (files.map (fun f => 46 + f.name.length)).sum + 22 := by
  show (buildZipBlob files).length =
    (files.map recLen).sum + (files.map cdLen).sum + 22
  rw [buildZipBlob_eq]
  simp only [List.length_append, flatten_length_localRecs, flatten_length_cds,
    eocd_length]

/-! ### Workbook XML Generator and CSV fallback -/

/-- JS `String.replace(/x/g, r)` for a single-character pattern `x`: every
occurrence of `c` is replaced by `r`, all other characters pass through. -/
def jsReplaceChar (c : Char) (r : List Char) : List Char → List Char
  | [] => []
  | x :: xs => (if x = c then r else [x]) ++ jsReplaceChar c r xs

/-- Character-wise expansion (flat map of a per-character substitution). -/
def expand (f : Char → List Char) : List Char → List Char
  | [] => []
  | x :: xs => f x ++ expand f xs

/-- `escapeXml(s)` from `src/scrapeIntents.js` lines 929-936 (the local `esc`
at lines 520-523 is the identical function): sequentially replaces the four
characters `&`, `<`, `>`, `"` by their entities.  It does NOT touch newlines. -/
def escapeXml (s : List Char) : List Char :=
  jsReplaceChar ('"') ("&quot;".data)
    (jsReplaceChar ('>') ("&gt;".data)
      (jsReplaceChar ('<') ("&lt;".data)
        (jsReplaceChar ('&') ("&amp;".data) s)))

namespace Browser

/-- `esc(s)` from `src/scrapeIntentsBrowser.js` lines 225-228: the four
character entities of `escapeXml` followed by `.replace(/\n/g, "&#10;")`. -/
def esc (s : List Char) : List Char :=
  jsReplaceChar ('\n') ("&#10;".data)
    (jsReplaceChar ('"') ("&quot;".data)
      (jsReplaceChar ('>') ("&gt;".data)
        (jsReplaceChar ('<') ("&lt;".data)
          (jsReplaceChar ('&') ("&amp;".data) s))))

end Browser

/-- Per-character specification of the browser variant's escaping: all five
special characters are mapped to entities, everything else passes through. -/
def escCharB (c : Char) : List Char :=
  if c = '&' then "&amp;".data
  else if c = '<' then "&lt;".data
  else if c = '>' then "&gt;".data
  else if c = '"' then "&quot;".data
  else if c = '\n' then "&#10;".data
  else [c]

/-- Per-character specification of the Node variant's escaping: only the four
characters `&`, `<`, `>`, `"` are mapped; newlines pass through unchanged. -/
def escChar4 (c : Char) : List Char :=
  if c = '&' then "&amp;".data
  else if c = '<' then "&lt;".data
  else if c = '>' then "&gt;".data
  else if c = '"' then "&quot;".data
  else [c]

lemma jsReplaceChar_append (c : Char) (r : List Char) : ∀ (a b : List Char),
    jsReplaceChar c r (a ++ b) = jsReplaceChar c r a ++ jsReplaceChar c r b := by
  intro a
  induction a with
  | nil => intro b; rfl
  | cons x xs ih =>
    intro b
    simp only [List.cons_append, jsReplaceChar, List.append_eq, ih,
      List.append_assoc]

lemma escB_append (a b : List Char) :
    Browser.esc (a ++ b) = Browser.esc a ++ Browser.esc b := by
  simp only [Browser.esc, jsReplaceChar_append]

lemma escapeXml_append (a b : List Char) :
    escapeXml (a ++ b) = escapeXml a ++ escapeXml b := by
  simp only [escapeXml, jsReplaceChar_append]

lemma escB_char (a : Char) : Browser.esc [a] = escCharB a := by
  by_cases h1 : a = '&'
  · subst h1; decide
  by_cases h2 : a = '<'
  · subst h2; decide
  by_cases h3 : a = '>'
  · subst h3; decide
  by_cases h4 : a = '"'
  · subst h4; decide
  by_cases h5 : a = '\n'
  · subst h5; decide
  simp [Browser.esc, jsReplaceChar, escCharB, h1, h2, h3, h4, h5]

lemma escapeXml_char (a : Char) : escapeXml [a] = escChar4 a := by
  by_cases h1 : a = '&'
  · subst h1; decide
  by_cases h2 : a = '<'
  · subst h2; decide
  by_cases h3 : a = '>'
  · subst h3; decide
  by_cases h4 : a = '"'
  · subst h4; decide
  simp [escapeXml, jsReplaceChar, escChar4, h1, h2, h3, h4]

lemma escB_eq_expand : ∀ (s : List Char), Browser.esc s = expand escCharB s := by
  intro s
  induction s with
  | nil => rfl
  | cons x xs ih =>
    have h : Browser.esc (x :: xs) = Browser.esc [x] ++ Browser.esc xs := by
      have hx := escB_append [x] xs
      simpa using hx
    rw [h, ih, escB_char x]
    rfl

lemma escapeXml_eq_expand : ∀ (s : List Char), escapeXml s = expand escChar4 s := by
  intro s
  induction s with
  | nil => rfl
  | cons x xs ih =>
    have h : escapeXml (x :: xs) = escapeXml [x] ++ escapeXml xs := by
      have hx := escapeXml_append [x] xs
      simpa using hx
    rw [h, ih, escapeXml_char x]
    rfl

lemma escCharB_no_newline (a : Char) : '\n' ∉ escCharB a := by
  by_cases h1 : a = '&'
  · subst h1; decide
  by_cases h2 : a = '<'
  · subst h2; decide
  by_cases h3 : a = '>'
  · subst h3; decide
  by_cases h4 : a = '"'
  · subst h4; decide
  by_cases h5 : a = '\n'
  · subst h5; decide
  simp only [escCharB, if_neg h1, if_neg h2, if_neg h3, if_neg h4, if_neg h5,
    List.mem_singleton]
  intro he
  exact h5 he.symm

lemma expand_escCharB_no_newline : ∀ (s : List Char), '\n' ∉ expand escCharB s := by
  intro s
  induction s with
  | nil => simp [expand]
  | cons x xs ih =>
    intro hmem
    rcases List.mem_append.mp hmem with h | h
    · exact escCharB_no_newline x h
    · exact ih h

/-- C3 (counterexample): the XML-escaping function `escapeXml` of
`src/scrapeIntents.js` leaves an embedded newline unescaped — the escaped
output of the one-character string containing a newline is that raw newline,
contradicting the claim that every escaping function maps embedded newlines to
the numeric line-feed entity. -/
theorem xml_escape_claim_counterexample :
    escapeXml ['\n'] = ['\n'] ∧ '\n' ∈ escapeXml ['\n'] := by
  constructor
  · decide
  · decide

/-- C3 (amended): the browser variant's `esc` replaces all five special
characters character-wise (`&`→`&amp;`, `<`→`&lt;`, `>`→`&gt;`, `"`→`&quot;`,
newline→`&#10;`) and its output contains no raw newline; the `esc`/`escapeXml`
of `src/scrapeIntents.js` replace only the four characters `&`, `<`, `>`, `"`
and leave embedded newlines unchanged. -/
theorem xml_escape_amended (s : List Char) :
    Browser.esc s = expand escCharB s ∧ '\n' ∉ Browser.esc s ∧
      escapeXml s = expand escChar4 s := by
  refine ⟨escB_eq_expand s, ?_, escapeXml_eq_expand s⟩
  rw [escB_eq_expand s]
  exact expand_escCharB_no_newline s

/-- Loop body of `colLetter` / `col`: `while (idx > 0) { idx--;
s = String.fromCharCode(65 + (idx % 26)) + s; idx = Math.floor(idx / 26); }`. -/
def colLetterGo : Nat → List Char → List Char
  | 0, acc => acc
  | n + 1, acc => colLetterGo (n / 26) (Char.ofNat (65 + n % 26) :: acc)
decreasing_by exact Nat.lt_succ_of_le (Nat.div_le_self n 26)

/-- `colLetter(idx)` from `src/scrapeIntents.js` lines 938-947 (the `col` of
`src/scrapeIntentsBrowser.js` lines 229-233 is the identical function): the
zero-based column index is incremented once, then the loop runs. -/
def colLetter (idx : Nat) : List Char := colLetterGo (idx + 1) []

/-- C6: the column-letter function maps index 0 to "A", 25 to "Z", 26 to "AA"
and 701 to "ZZ" (base-26 alphabetic encoding with no zero symbol, index
decremented before each division). -/
theorem colLetter_law :
    colLetter 0 = "A".data ∧ colLetter 25 = "Z".data ∧
      colLetter 26 = "AA".data ∧ colLetter 701 = "ZZ".data := by
  refine ⟨?_, ?_, ?_, ?_⟩ <;> simp [colLetter, colLetterGo]

/-- JS `v || ''` on an optional string value: `undefined`/`null` (here `none`)
and the empty string are falsy and yield `''`; any other string passes through. -/
def jsOrEmpty : Option (List Char) → List Char
  | none => []
  | some v => if v.isEmpty then [] else v

/-- Literal prefix of a worksheet cell up to the cell reference. -/
def cellPre : List Char := "<c r=\"".data

/-- Literal middle of a worksheet cell between the reference and the text. -/
def cellMid : List Char := "\" t=\"inlineStr\"><is><t>".data

/-- Literal suffix of a worksheet cell after the text. -/
def cellPost : List Char := "</t></is></c>".data

/-- One data cell of the worksheet generator (`src/scrapeIntents.js` lines
962-966): reference `colLetter(c) + rowNum`, inline-string type, and the
escaped value `escapeXml(data[r][keys[c]] || '')`. -/
def cellXml (c rowNum : Nat) (k : List Char)
    (row : List Char → Option (List Char)) : List Char :=
  cellPre ++ colLetter c ++ (Nat.repr rowNum).data ++ cellMid ++
    escapeXml (jsOrEmpty (row k)) ++ cellPost

/-- One data row of the worksheet generator (`src/scrapeIntents.js` lines
959-968): `<row r="N">`, one cell per declared key, `</row>`; total for every
row function, whatever keys it lacks. -/
def dataRowXml (rowNum : Nat) (keys : List (List Char))
    (row : List Char → Option (List Char)) : List Char :=
  "<row r=\"".data ++ (Nat.repr rowNum).data ++ "\">".data ++
    ((List.range keys.length).map
      (fun c => cellXml c rowNum (keys.getD c []) row)).flatten ++
    "</row>".data

/-- C8: if a row lacks the declared key (or maps it to null/undefined/the empty
string), the worksheet generator emits an inline-string cell containing the
empty string — `cellPre ++ colLetter c ++ rowNum ++ cellMid ++ cellPost` is the
cell whose `<t>` element is immediately closed — rather than failing; the
generator (`cellXml`/`dataRowXml`) is a total function over arbitrary rows. -/
theorem missing_key_empty_cell (row : List Char → Option (List Char))
    (k : List Char) (c rowNum : Nat)
    (h : row k = none ∨ row k = some []) :
    cellXml c rowNum k row =
      cellPre ++ colLetter c ++ (Nat.repr rowNum).data ++ cellMid ++ cellPost := by
  rcases h with h | h <;>
    simp [cellXml, h, jsOrEmpty, escapeXml, jsReplaceChar]

/-- Witness for C8: a row with no keys at all still yields the empty
inline-string cell at column 5, row 2. -/
theorem missing_key_empty_cell_witness :
    ((fun _ : List Char => (none : Option (List Char))) ("examples".data) = none ∨
      (fun _ : List Char => (none : Option (List Char))) ("examples".data) = some []) ∧
    cellXml 5 2 ("examples".data) (fun _ => none) =
      cellPre ++ colLetter 5 ++ (Nat.repr 2).data ++ cellMid ++ cellPost :=
  ⟨Or.inl rfl,
    missing_key_empty_cell (fun _ => none) ("examples".data) 5 2 (Or.inl rfl)⟩

/-! ### Delimited-text (CSV) fallback -/

/-- One CSV field (`downloadCsv` in `src/scrapeIntents.js` lines 1067-1070):
the value (empty if absent) with internal double quotes doubled, wrapped in
double quotes. -/
def csvField (v : Option (List Char)) : List Char :=
  ['"'] ++ jsReplaceChar ('"') ("\"\"".data) (jsOrEmpty v) ++ ['"']

/-- One CSV data line: the row's fields in key order, comma-joined. -/
def csvLine (keys : List (List Char))
    (row : List Char → Option (List Char)) : List Char :=
  List.intercalate [','] (keys.map (fun k => csvField (row k)))

/-- `downloadCsv(data, headers, keys)` text from `src/scrapeIntents.js` lines
1063-1073: `csvRows` starts as the comma-joined header line, each row pushes
one line, and the rows are newline-joined. -/
def downloadCsvText (headers keys : List (List Char))
    (data : List (List Char → Option (List Char))) : List Char :=
  List.intercalate ['\n']
    (data.foldl (fun acc row => acc ++ [csvLine keys row])
      [List.intercalate [','] headers])

lemma csv_foldl_push (keys : List (List Char)) :
    ∀ (data : List (List Char → Option (List Char))) (acc : List (List Char)),
    data.foldl (fun acc row => acc ++ [csvLine keys row]) acc =
      acc ++ data.map (csvLine keys) := by
  intro data
  induction data with
  | nil => intro acc; simp
  | cons r rest ih =>
    intro acc
    simp only [List.foldl_cons, List.map_cons, ih, List.append_assoc,
      List.singleton_append]

/-- C9: the delimited-text fallback is the header line followed by exactly one
line per row, newline-joined; each data line comma-joins one double-quote
enclosed field per key; and quote-doubling exactly doubles the number of
double-quote characters of the field value. -/
theorem csv_structure (headers keys : List (List Char))
    (data : List (List Char → Option (List Char))) :
    downloadCsvText headers keys data =
        List.intercalate ['\n']
          (List.intercalate [','] headers :: data.map (csvLine keys)) ∧
      (List.intercalate [','] headers :: data.map (csvLine keys)).length =
        1 + data.length ∧
      (∀ v : Option (List Char),
        (csvField v).head? = some '"' ∧ (csvField v).getLast? = some '"') ∧
      (∀ w : List Char,
        (jsReplaceChar ('"') ("\"\"".data) w).count '"' = 2 * w.count '"') := by
  refine ⟨?_, ?_, ?_, ?_⟩
  · unfold downloadCsvText
    rw [csv_foldl_push]
    simp
  · simp
    omega
  · intro v
    constructor
    · rfl
    · show ((['"'] ++ jsReplaceChar ('"') ("\"\"".data) (jsOrEmpty v)) ++
        ['"']).getLast? = some '"'
      rw [List.getLast?_concat]
  · intro w
    induction w with
    | nil => rfl
    | cons x xs ih =>
      by_cases h : x = '"'
      · subst h
        simp only [jsReplaceChar, if_pos rfl, List.count_cons, List.count_append, ih]
        simp [List.count_cons]
        omega
      · simp only [jsReplaceChar, if_neg h, List.count_cons, List.count_append, ih,
          List.singleton_append]
        simp [List.count_cons, h]

end ReadIntents
